import Mathlib

/-!
# Verification of the Caliptra MCU emulator core (shallow embedding)

This development embeds, in Lean, the parts of the `caliptra-mcu-sw`
sources that the checked properties speak about:

* the system step loop `Emulator::step` (src/emulator/app/src/emulator.rs),
* the remote-debugger front end `GdbTarget`
  (src/emulator/app/src/gdb/gdb_target.rs),
* the DOE data-object capsule `DoeDriver`
  (src/runtime/kernel/capsules/src/doe/driver.rs),
* firmware image loading `Emulator::read_binary` and the recovery-image
  setup in `Emulator::new` (src/emulator/app/src/emulator.rs),
* the firmware ZIP bundle (src/builder/src/all.rs),
* the reset-reason register model
  (src/emulator/periph/src/reset_reason.rs).

Pure functions are translated to Lean functions; stateful code is explicit
state passing.  Machine integers are `Nat` with `% 2 ^ 32` where wrapping
matters.  Effects on the outside world (stepping a CPU, a bus access, the
DOE transport, the grant upcalls) are represented by explicit oracles,
traces or outcome values so that the order and the content of the effects
can be stated.
-/

/-! ## 1. The system step loop (src/emulator/app/src/emulator.rs)

`caliptra_emu_cpu::StepAction` comes from an external crate.  Modelled from
the spec, section 4.E: a CPU step stops with `Break`, continues with
`Continue`, and fatal decode errors propagate as an exit; the source's
`match` in `Emulator::step` treats every action other than `Continue` and
`Break` as an exit. -/

inductive StepAction where
  | Continue : StepAction
  | Break : StepAction
  | Fatal : StepAction
deriving DecidableEq, Repr

/-- `SystemStepAction` from src/emulator/app/src/emulator.rs. -/
inductive SystemStepAction where
  | Continue : SystemStepAction
  | Break : SystemStepAction
  | Exit : SystemStepAction
deriving DecidableEq, Repr

/-- The fields of `Emulator` that `Emulator::step` touches.  The MCU CPU,
the Caliptra CPU and the BMC are opaque to the step loop; their states are
type parameters and their step functions are passed in explicitly.
`stdin_uart` is `Option (Option Nat)`: an optional single-byte slot. -/
structure EmulatorSt (M C B : Type) where
  mcu_cpu : M
  caliptra_cpu : C
  bmc : Option B
  stdin_uart : Option (Option Nat)

/-- Whether the stdin UART slot is present and holds a byte
(`stdin_uart.lock().unwrap().is_some()` in the source). -/
def EmulatorSt.stdin_pending {M C B : Type} (s : EmulatorSt M C B) : Bool :=
  match s.stdin_uart with
  | some (some _) => true
  | _ => false

/-- The observable sub-steps of one `Emulator::step` call, in the order the
source performs them. -/
inductive SubStep where
  | mcuCpuStep : SubStep
  | caliptraCpuStep : SubStep
  | bmcStep : SubStep
  | schedulePollEvt : SubStep
deriving DecidableEq, Repr

/-- What one `Emulator::step` call produces: the new state, the returned
`SystemStepAction`, and the trace of sub-steps in execution order. -/
structure StepOutcome (M C B : Type) where
  state : EmulatorSt M C B
  action : SystemStepAction
  trace : List SubStep

/-- `Emulator::step` (src/emulator/app/src/emulator.rs lines 347-379):
step the MCU CPU, step the Caliptra CPU (its action is demoted to
`Continue`), step the BMC if present, schedule a poll if a stdin byte is
queued, and return the mapped MCU action. -/
def Emulator.step {M C B : Type} (mcuStep : M → M × StepAction)
    (caliptraStep : C → C × StepAction) (bmcStepFn : B → B)
    (s : EmulatorSt M C B) : StepOutcome M C B :=
  -- Step MCU CPU
  let mcu' := (mcuStep s.mcu_cpu).1
  let mcu_action := (mcuStep s.mcu_cpu).2
  -- Step Caliptra CPU ("Don't exit system if only Caliptra halts")
  let cal' := (caliptraStep s.caliptra_cpu).1
  let _caliptra_action : SystemStepAction :=
    match (caliptraStep s.caliptra_cpu).2 with
    | StepAction.Continue => SystemStepAction.Continue
    | _ => SystemStepAction.Continue
  -- Step BMC if present
  let bmcStepped : Option B × List SubStep :=
    match s.bmc with
    | some b => (some (bmcStepFn b), [SubStep.bmcStep])
    | none => (none, [])
  -- Check stdin UART
  let pollTrace : List SubStep :=
    if s.stdin_pending then [SubStep.schedulePollEvt] else []
  -- Return the most significant action
  let result : SystemStepAction :=
    match mcu_action with
    | StepAction.Continue => SystemStepAction.Continue
    | StepAction.Break => SystemStepAction.Break
    | _ => SystemStepAction.Exit
  { state := ⟨mcu', cal', bmcStepped.1, s.stdin_uart⟩
    action := result
    trace := [SubStep.mcuCpuStep, SubStep.caliptraCpuStep] ++ bmcStepped.2 ++ pollTrace }

/-- The mapping `Emulator::step` applies to the MCU CPU's action. -/
def StepAction.toSystemAction : StepAction → SystemStepAction
  | StepAction.Continue => SystemStepAction.Continue
  | StepAction.Break => SystemStepAction.Break
  | StepAction.Fatal => SystemStepAction.Exit

/-- Rank of an action under the precedence `Exit > Break > Continue`
(spec, section 4.H). -/
def SystemStepAction.rank : SystemStepAction → Nat
  | SystemStepAction.Continue => 0
  | SystemStepAction.Break => 1
  | SystemStepAction.Exit => 2

/-- The strongest of two actions under `Exit > Break > Continue`
(spec, section 4.H). -/
def strongest_action (a b : SystemStepAction) : SystemStepAction :=
  if a.rank < b.rank then b else a

/-- The spec's demotion of the root-of-trust CPU's action: any
non-`Continue` action is demoted to `Continue`. -/
def demote_root_of_trust : StepAction → SystemStepAction
  | StepAction.Continue => SystemStepAction.Continue
  | _ => SystemStepAction.Continue

/-! ## 2. The debugger front end (src/emulator/app/src/gdb/gdb_target.rs)

`gdbstub`'s stop-reason and signal types come from an external crate; only
the constructors the source uses are modelled, and the watchpoint payload
(tid, kind, address) is elided since no checked property reads it. -/

inductive GSignal where
  | SIGINT : GSignal
  | SIGALRM : GSignal
deriving DecidableEq, Repr

inductive SingleThreadStopReason where
  | Signal : GSignal → SingleThreadStopReason
  | SwBreak : SingleThreadStopReason
  | Watch : SingleThreadStopReason
  | Exited : Nat → SingleThreadStopReason
  | DoneStep : SingleThreadStopReason
deriving DecidableEq, Repr

/-- `ExecMode` from src/emulator/app/src/gdb/gdb_target.rs. -/
inductive ExecMode where
  | Step : ExecMode
  | Continue : ExecMode
deriving DecidableEq, Repr

/-- The emulator as the debugger loop observes it: the `k`-th call to
`Emulator::step` returns action `act k`, after which `read_pc` returns
`pc k`.  The Caliptra CPU, BMC and peripherals are folded into this
oracle. -/
structure EmuOracle where
  act : Nat → SystemStepAction
  pc : Nat → Nat

/-- The body of the `for _ in 0..1000` loop of `GdbTarget::run_responsive`,
by remaining fuel.  `k` counts the `Emulator::step` calls made so far;
`intr k` is whether `interrupt_requested` is observed set at the start of
iteration `k`.  The pair's second component is the total number of
`Emulator::step` calls performed. -/
def run_responsive_loop (o : EmuOracle) (breakpoints : List Nat)
    (intr : Nat → Bool) : Nat → Nat → SingleThreadStopReason × Nat
  | 0, k => (SingleThreadStopReason.Signal GSignal.SIGALRM, k)
  | fuel + 1, k =>
    if intr k then (SingleThreadStopReason.Signal GSignal.SIGINT, k)
    else
      match o.act k with
      | SystemStepAction.Continue =>
        if breakpoints.contains (o.pc k) then (SingleThreadStopReason.SwBreak, k + 1)
        else run_responsive_loop o breakpoints intr fuel (k + 1)
      | SystemStepAction.Break => (SingleThreadStopReason.Watch, k + 1)
      | SystemStepAction.Exit => (SingleThreadStopReason.Exited 0, k + 1)

/-- `GdbTarget::run_responsive` (src/emulator/app/src/gdb/gdb_target.rs
lines 151-196).  In `Step` mode one `Emulator::step` call and `DoneStep`;
in `Continue` mode the bounded loop with 1000 iterations of fuel. -/
def GdbTarget.run_responsive (mode : ExecMode) (o : EmuOracle)
    (breakpoints : List Nat) (intr : Nat → Bool) :
    SingleThreadStopReason × Nat :=
  match mode with
  | ExecMode.Step => (SingleThreadStopReason.DoneStep, 1)
  | ExecMode.Continue => run_responsive_loop o breakpoints intr 1000 0

/-- `Vec::push` in `add_sw_breakpoint`: the address is appended; the call
returns `Ok(true)`. -/
def GdbTarget.add_sw_breakpoint (breakpoints : List Nat) (addr : Nat) :
    List Nat × Bool :=
  (breakpoints ++ [addr], true)

/-- `self.breakpoints.iter().position(|x| *x == addr)`. -/
def position_of (breakpoints : List Nat) (addr : Nat) : Option Nat :=
  match breakpoints with
  | [] => none
  | x :: rest => if x = addr then some 0 else (position_of rest addr).map (· + 1)

/-- `GdbTarget::remove_sw_breakpoint` (src/emulator/app/src/gdb/gdb_target.rs
lines 368-375): remove the first occurrence of `addr`, `Ok(false)` if
absent. -/
def GdbTarget.remove_sw_breakpoint (breakpoints : List Nat) (addr : Nat) :
    List Nat × Bool :=
  match position_of breakpoints addr with
  | none => (breakpoints, false)
  | some pos => (breakpoints.eraseIdx pos, true)

/-- The only way the stepping loops consult the breakpoint list:
`self.breakpoints.contains(&self.emulator.read_pc())`. -/
def hits_sw_breakpoint (breakpoints : List Nat) (pc : Nat) : Bool :=
  breakpoints.contains pc

/-- `GdbTarget::read_addrs` (src/emulator/app/src/gdb/gdb_target.rs lines
255-263).  The bus is a function from byte address to `Option` data;
`none` is a bus fault.  Each byte is
`read_bus(RvSize::Byte, start.wrapping_add(i)).unwrap_or_default() as u8`,
and the function always returns `Ok`. -/
def GdbTarget.read_addrs (read_bus : Nat → Option Nat) (start_addr : Nat)
    (len : Nat) : Except String (List Nat) :=
  Except.ok ((List.range len).map fun i =>
    ((read_bus ((start_addr + i) % 2 ^ 32)).getD 0) % 256)

/-- One byte write of `GdbTarget::write_addrs`:
`write_bus(...).unwrap_or_default()` — a faulting write (`none`) leaves the
bus state unchanged and the loop continues. -/
def write_byte_step {Mem : Type} (write_bus : Mem → Nat → Nat → Option Mem)
    (m : Mem) (addr data : Nat) : Mem :=
  match write_bus m addr data with
  | some m' => m'
  | none => m

/-- The loop of `GdbTarget::write_addrs` over `data`, with `i` the current
index. -/
def write_addrs_loop {Mem : Type} (write_bus : Mem → Nat → Nat → Option Mem)
    (start_addr : Nat) : Mem → Nat → List Nat → Mem
  | m, _, [] => m
  | m, i, d :: rest =>
    write_addrs_loop write_bus start_addr
      (write_byte_step write_bus m ((start_addr + i) % 2 ^ 32) d) (i + 1) rest

/-- `GdbTarget::write_addrs` (src/emulator/app/src/gdb/gdb_target.rs lines
265-277): write each byte at `start.wrapping_add(i)`, discarding faults,
and return `Ok`. -/
def GdbTarget.write_addrs {Mem : Type} (write_bus : Mem → Nat → Nat → Option Mem)
    (m : Mem) (start_addr : Nat) (data : List Nat) : Except String Mem :=
  Except.ok (write_addrs_loop write_bus start_addr m 0 data)

/-! ## 3. The DOE capsule (src/runtime/kernel/capsules/src/doe/driver.rs)

The protocol module `crate::doe::protocol` belongs to this repository but
is not among the staged sources; its types and constants are modelled from
the spec, section 4.G: a data object is a word-aligned sequence prefixed
with a two-word header (vendor id, data-object-type, length in
double-words); the recognized types are DoeDiscovery, Spdm and SecureSpdm
and unknown types are rejected; discovery returns the next supported type
id modulo the table size. -/

/-- Modelled from the spec: the data-object protocol types of
`crate::doe::protocol`.  The three supported types carry ids 0, 1, 2 in
table order; every other id is `Unsupported`. -/
inductive DataObjectType where
  | DoeDiscovery : DataObjectType
  | Spdm : DataObjectType
  | SecureSpdm : DataObjectType
  | Unsupported : DataObjectType
deriving DecidableEq, Repr

/-- Modelled from the spec: the number of supported data-object protocol
types (the discovery table size `N`). -/
def NUM_DATA_OBJECT_PROTOCOL_TYPES : Nat := 3

/-- Modelled from the spec: `DataObjectType::from` on a protocol id. -/
def DataObjectType.fromId (i : Nat) : DataObjectType :=
  if i = 0 then DataObjectType.DoeDiscovery
  else if i = 1 then DataObjectType.Spdm
  else if i = 2 then DataObjectType.SecureSpdm
  else DataObjectType.Unsupported

/-- Modelled from the spec: `data_object_protocol as u8`, the id of a
supported type in table order (`Unsupported` has no id; 3 is never used by
the source on that variant). -/
def DataObjectType.toId : DataObjectType → Nat
  | DataObjectType.DoeDiscovery => 0
  | DataObjectType.Spdm => 1
  | DataObjectType.SecureSpdm => 2
  | DataObjectType.Unsupported => 3

/-- Modelled from the spec: the two-word DOE data-object header length. -/
def DOE_DATA_OBJECT_HEADER_LEN_DW : Nat := 2

/-- Modelled from the spec (scenario S4, `len=3`): a DOE discovery data
object is the two-word header plus one payload word. -/
def DOE_DISCOVERY_DATA_OBJECT_LEN_DW : Nat := 3

/-- Modelled from the spec: a DOE discovery request; its payload word
carries the requested index in its low byte. -/
structure DoeDiscoveryRequest where
  index : Nat
deriving DecidableEq, Repr

/-- Modelled from the spec: `DoeDiscoveryRequest::decode` on the payload
word. -/
def DoeDiscoveryRequest.decode (dw : Nat) : DoeDiscoveryRequest :=
  ⟨dw % 256⟩

/-- Modelled from the spec: the discovery response payload, built by the
source as `DoeDiscoveryResponse::new(data_object_protocol as u8,
next_index)`. -/
structure DoeDiscoveryResponse where
  data_object_protocol : Nat
  next_index : Nat
deriving DecidableEq, Repr

/-- Modelled from the spec: the decoded two-word header {vendor id,
data-object-type, length in double-words}. -/
structure DoeDataObjectHeader where
  vendor_id : Nat
  data_object_ty : DataObjectType
  length : Nat
deriving DecidableEq, Repr

/-- Modelled from the spec: `DoeDataObjectHeader::decode` reads the vendor
id and type id from the first word and the double-word length from the
second; it fails if no full header is present. -/
def DoeDataObjectHeader.decode (rx_buf : List Nat) : Option DoeDataObjectHeader :=
  match rx_buf with
  | w0 :: w1 :: _ =>
    some ⟨w0 % 2 ^ 16, DataObjectType.fromId (w0 / 2 ^ 16 % 2 ^ 8), w1⟩
  | _ => none

/-- Modelled from the spec: `DoeDataObjectHeader::validate` — "the
transport enforces that `length` in the header matches the delivered word
count". -/
def DoeDataObjectHeader.validate (hdr : DoeDataObjectHeader) (len : Nat) : Bool :=
  hdr.length = len

/-- `DoeDriver::handle_doe_discovery`
(src/runtime/kernel/capsules/src/doe/driver.rs lines 127-168): an
unsupported index gets no response; otherwise the transport transmits a
three-word discovery data object whose payload names the matched protocol
and the next index `(id + 1) % NUM_DATA_OBJECT_PROTOCOL_TYPES`.  The
result is what is handed to `doe_transport.transmit`, `none` when nothing
is transmitted.  (The response header's type and vendor follow the spec's
scenario S4: a discovery response is itself a discovery-type object.) -/
def DoeDriver.handle_doe_discovery (doe_req : DoeDiscoveryRequest) :
    Option (DoeDataObjectHeader × DoeDiscoveryResponse) :=
  let data_object_protocol := DataObjectType.fromId doe_req.index
  if data_object_protocol = DataObjectType.Unsupported then none
  else
    let next_index := (data_object_protocol.toId + 1) % NUM_DATA_OBJECT_PROTOCOL_TYPES
    some (⟨0, DataObjectType.DoeDiscovery, DOE_DISCOVERY_DATA_OBJECT_LEN_DW⟩,
      ⟨data_object_protocol.toId, next_index⟩)

/-- What one `DoeTransportRxClient::receive` call does after its checks:
drop the frame (returning the buffer, nothing else), answer a discovery
request, or run the SPDM upcall path.  In every arm the source hands the
buffer back to the transport via `set_rx_buffer` (for SPDM at the end of
`handle_spdm_upcall`). -/
inductive RxAction where
  | drop : RxAction
  | discovery : DoeDiscoveryRequest → RxAction
  | spdm : Nat → RxAction
deriving DecidableEq, Repr

/-- Whether the action schedules (or may schedule) an application upcall:
only the SPDM path reaches `schedule_upcall`. -/
def RxAction.schedules_upcall : RxAction → Bool
  | RxAction.drop => false
  | RxAction.discovery _ => false
  | RxAction.spdm _ => true

/-- Whether the action transmits a response on the transport. -/
def RxAction.transmits_response : RxAction → Bool
  | RxAction.drop => false
  | RxAction.discovery req => (DoeDriver.handle_doe_discovery req).isSome
  | RxAction.spdm _ => false

/-- Whether the buffer is handed back to the transport via
`set_rx_buffer`.  Every arm of the source does so. -/
def RxAction.returns_buffer : RxAction → Bool
  | RxAction.drop => true
  | RxAction.discovery _ => true
  | RxAction.spdm _ => true

/-- `DoeTransportRxClient::receive` for `DoeDriver`
(src/runtime/kernel/capsules/src/doe/driver.rs lines 297-345): reject a
delivered word count below 3 or beyond the buffer, a header that does not
decode, and a header length that does not match the delivered count; then
dispatch on the data-object type. -/
def DoeDriver.receive (rx_buf : List Nat) (len : Nat) : RxAction :=
  if len < 3 ∨ rx_buf.length < len then RxAction.drop
  else
    match DoeDataObjectHeader.decode rx_buf with
    | none => RxAction.drop
    | some doe_hdr =>
      if doe_hdr.validate len then
        match doe_hdr.data_object_ty with
        | DataObjectType.DoeDiscovery =>
          RxAction.discovery (DoeDiscoveryRequest.decode
            ((rx_buf.get? DOE_DATA_OBJECT_HEADER_LEN_DW).getD 0))
        | DataObjectType.Spdm => RxAction.spdm len
        | DataObjectType.SecureSpdm => RxAction.spdm len
        | DataObjectType.Unsupported => RxAction.drop
      else RxAction.drop

/-! ## 4. Firmware image loading (src/emulator/app/src/emulator.rs) -/

/-- Modelled from the spec: the parsed view `crate::elf::ElfExecutable`
(the ELF parser module is not among the staged sources; parsing itself is
out of scope).  Only the accessors the source reads are kept. -/
structure ElfExecutable where
  load_addr : Nat
  entry_point : Nat
  content : List Nat
deriving DecidableEq, Repr

/-- A firmware file's contents: either a raw binary (no
`0x7f 'E' 'L' 'F'` magic) or a successfully parsed ELF. -/
inductive FileContent where
  | raw : List Nat → FileContent
  | elf : ElfExecutable → FileContent
deriving DecidableEq, Repr

/-- `std::io::ErrorKind` values the source produces. -/
inductive IoErrorKind where
  | InvalidInput : IoErrorKind
deriving DecidableEq, Repr

/-- `Emulator::read_binary` (src/emulator/app/src/emulator.rs lines
393-422): raw files pass through; an ELF must load at
`expect_load_addr` and its entry point must equal `expect_load_addr` or
`load_addr + 0x20` (TBF entry offset), else `InvalidInput`; on success the
ELF content replaces the buffer. -/
def Emulator.read_binary (file : FileContent) (expect_load_addr : Nat) :
    Except IoErrorKind (List Nat) :=
  match file with
  | FileContent.raw buffer => Except.ok buffer
  | FileContent.elf elf =>
    if elf.load_addr ≠ expect_load_addr then Except.error IoErrorKind.InvalidInput
    else if elf.entry_point ≠ expect_load_addr ∧ elf.entry_point ≠ elf.load_addr + 0x20 then
      Except.error IoErrorKind.InvalidInput
    else Except.ok elf.content

/-! ## 5. Recovery images at startup (src/emulator/app/src/emulator.rs)

The recovery controller type `emulator_bmc::Bmc` belongs to this
repository but is not among the staged sources. -/

/-- Modelled from the spec: the recovery controller's state visible to
startup — its ordered queue of opaque image blobs, empty at construction
(section 3: "Ordered sequence of opaque byte blobs ... populated at
startup"). -/
structure Bmc where
  recovery_images : List (List Nat)
deriving DecidableEq, Repr

/-- Modelled from the spec: `Bmc::new` starts with an empty queue. -/
def Bmc.new : Bmc := ⟨[]⟩

/-- Modelled from the spec: `Bmc::push_recovery_image` appends one blob to
the queue. -/
def Bmc.push_recovery_image (b : Bmc) (image : List Nat) : Bmc :=
  ⟨b.recovery_images ++ [image]⟩

/-- `Emulator::build_bus_system` without the `test-flash-based-boot`
feature (src/emulator/app/src/emulator.rs lines 596-608): the recovery
images returned to `Emulator::new` are always
`Some((caliptra_firmware, soc_manifest, mcu_firmware))`. -/
def build_bus_system_recovery_images (caliptra_firmware soc_manifest mcu_firmware : List Nat) :
    Option (List Nat × List Nat × List Nat) :=
  some (caliptra_firmware, soc_manifest, mcu_firmware)

/-- The BMC setup in `Emulator::new` without the `test-flash-based-boot`
feature (src/emulator/app/src/emulator.rs lines 314-335): a fresh `Bmc` is
created and, when recovery images are present, the Caliptra firmware, the
SoC manifest and the MCU firmware are pushed in that order. -/
def emulator_new_bmc (recovery_images : Option (List Nat × List Nat × List Nat)) :
    Option Bmc :=
  let bmc := Bmc.new
  match recovery_images with
  | some (caliptra_firmware, soc_manifest, mcu_firmware) =>
    some (((bmc.push_recovery_image caliptra_firmware).push_recovery_image
      soc_manifest).push_recovery_image mcu_firmware)
  | none => some bmc

/-! ## 6. The firmware ZIP bundle (src/builder/src/all.rs)

The ZIP container format is handled by an external crate; an archive is
embedded as its list of (entry name, entry bytes) pairs in file order. -/

/-- `FirmwareBinaries` (src/builder/src/all.rs lines 13-20); `Default`
gives empty vectors. -/
structure FirmwareBinaries where
  caliptra_rom : List Nat
  caliptra_fw : List Nat
  mcu_rom : List Nat
  mcu_runtime : List Nat
  soc_manifest : List Nat
deriving DecidableEq, Repr

def FirmwareBinaries.CALIPTRA_ROM_NAME : String := "caliptra_rom.bin"

def FirmwareBinaries.CALIPTRA_FW_NAME : String := "caliptra_fw.bin"

def FirmwareBinaries.MCU_ROM_NAME : String := "mcu_rom.bin"

def FirmwareBinaries.MCU_RUNTIME_NAME : String := "mcu_runtime.bin"

def FirmwareBinaries.SOC_MANIFEST_NAME : String := "soc_manifest.bin"

def FirmwareBinaries.default : FirmwareBinaries := ⟨[], [], [], [], []⟩

/-- One iteration of the entry loop of `FirmwareBinaries::read_from_zip`:
match the entry name against the five known names, ignore anything else. -/
def FirmwareBinaries.read_entry (b : FirmwareBinaries) (entry : String × List Nat) :
    FirmwareBinaries :=
  if entry.1 = FirmwareBinaries.CALIPTRA_ROM_NAME then { b with caliptra_rom := entry.2 }
  else if entry.1 = FirmwareBinaries.CALIPTRA_FW_NAME then { b with caliptra_fw := entry.2 }
  else if entry.1 = FirmwareBinaries.MCU_ROM_NAME then { b with mcu_rom := entry.2 }
  else if entry.1 = FirmwareBinaries.MCU_RUNTIME_NAME then { b with mcu_runtime := entry.2 }
  else if entry.1 = FirmwareBinaries.SOC_MANIFEST_NAME then { b with soc_manifest := entry.2 }
  else b

/-- `FirmwareBinaries::read_from_zip` (src/builder/src/all.rs lines
29-51): start from `Default` and fold the archive's entries in order. -/
def FirmwareBinaries.read_from_zip (entries : List (String × List Nat)) :
    FirmwareBinaries :=
  entries.foldl FirmwareBinaries.read_entry FirmwareBinaries.default

/-- The archive `all_build` writes (src/builder/src/all.rs lines 94-133):
five `add_to_zip` calls, in this order, with the literal entry names. -/
def all_build_entries (b : FirmwareBinaries) : List (String × List Nat) :=
  [(FirmwareBinaries.CALIPTRA_ROM_NAME, b.caliptra_rom),
   (FirmwareBinaries.CALIPTRA_FW_NAME, b.caliptra_fw),
   (FirmwareBinaries.MCU_ROM_NAME, b.mcu_rom),
   (FirmwareBinaries.MCU_RUNTIME_NAME, b.mcu_runtime),
   (FirmwareBinaries.SOC_MANIFEST_NAME, b.soc_manifest)]

/-! ## 7. The reset-reason register (src/emulator/periph/src/reset_reason.rs)

Bit positions follow the module's documentation and unit tests:
FW_HITLESS_UPD_RESET is bit 0, FW_BOOT_UPD_RESET is bit 1, WARM_RESET is
bit 2.  The register is a `u32`; `value` stays below `2 ^ 32`. -/

structure ResetReasonEmulator where
  value : Nat
  pwrgood : Bool
  first_mci_reset_captured : Bool
deriving DecidableEq, Repr

/-- `ResetReasonEmulator::new`. -/
def ResetReasonEmulator.new : ResetReasonEmulator := ⟨0, true, false⟩

/-- `ResetReasonEmulator::handle_power_down`. -/
def ResetReasonEmulator.handle_power_down (_s : ResetReasonEmulator) :
    ResetReasonEmulator := ⟨0, false, false⟩

/-- `ResetReasonEmulator::handle_power_up`. -/
def ResetReasonEmulator.handle_power_up (s : ResetReasonEmulator) :
    ResetReasonEmulator := { s with pwrgood := true }

/-- `ResetReasonEmulator::handle_warm_reset`
(src/emulator/periph/src/reset_reason.rs lines 93-110): set WARM_RESET
(bit 2) when power is good and this is not the first `mci_rst_b` edge
since power-on; record the edge; clear FW_BOOT_UPD_RESET (bit 1) and
FW_HITLESS_UPD_RESET (bit 0). -/
def ResetReasonEmulator.handle_warm_reset (s : ResetReasonEmulator) :
    ResetReasonEmulator :=
  let v1 := if s.pwrgood && s.first_mci_reset_captured then s.value ||| 4 else s.value
  { value := v1 &&& 0xFFFFFFFC
    pwrgood := s.pwrgood
    first_mci_reset_captured := true }

/-- The events relevant to the reset-reason register over a run.  `step`
is one `Emulator::step` call: no code in the sources connects the step
loop to `ResetReasonEmulator` (the register only changes through its
handlers), so a step leaves the register state unchanged. -/
inductive RREvent where
  | step : RREvent
  | warmReset : RREvent
  | powerDown : RREvent
  | powerUp : RREvent
deriving DecidableEq, Repr

/-- Process a sequence of events against the register model. -/
def ResetReasonEmulator.run (s : ResetReasonEmulator) : List RREvent → ResetReasonEmulator
  | [] => s
  | e :: rest =>
    (match e with
     | RREvent.step => s
     | RREvent.warmReset => s.handle_warm_reset
     | RREvent.powerDown => s.handle_power_down
     | RREvent.powerUp => s.handle_power_up).run rest

/-! ## Theorems -/

/-- C1: every `Emulator::step` call performs the MCU CPU step, then the
Caliptra (root-of-trust) CPU step, then the BMC (recovery controller) step
when a BMC is present, in that order; and the returned `SystemStepAction`
is the strongest of the two CPU actions under `Exit > Break > Continue`,
with any non-`Continue` root-of-trust action demoted to `Continue`. -/
theorem emulator_step_order_and_strongest {M C B : Type}
    (mcuStep : M → M × StepAction) (caliptraStep : C → C × StepAction)
    (bmcStepFn : B → B) (s : EmulatorSt M C B) :
    (Emulator.step mcuStep caliptraStep bmcStepFn s).trace =
      [SubStep.mcuCpuStep, SubStep.caliptraCpuStep]
        ++ (if s.bmc.isSome then [SubStep.bmcStep] else [])
        ++ (if s.stdin_pending then [SubStep.schedulePollEvt] else []) ∧
    (Emulator.step mcuStep caliptraStep bmcStepFn s).action =
      strongest_action ((mcuStep s.mcu_cpu).2.toSystemAction)
        (demote_root_of_trust ((caliptraStep s.caliptra_cpu).2)) := by
  constructor
  · cases hb : s.bmc <;> simp [Emulator.step, hb]
  · cases hm : (mcuStep s.mcu_cpu).2 <;>
      cases hc : (caliptraStep s.caliptra_cpu).2 <;>
      simp [Emulator.step, hm, hc, strongest_action, demote_root_of_trust,
        StepAction.toSystemAction, SystemStepAction.rank]

/-- The loop of `run_responsive` performs at most `fuel` further
`Emulator::step` calls beyond the `k` already done. -/
theorem run_responsive_loop_steps_le (o : EmuOracle) (breakpoints : List Nat)
    (intr : Nat → Bool) :
    ∀ fuel k, (run_responsive_loop o breakpoints intr fuel k).2 ≤ k + fuel := by
  intro fuel
  induction fuel with
  | zero => intro k; simp [run_responsive_loop]
  | succ n ih =>
    intro k
    rw [run_responsive_loop]
    by_cases hi : intr k = true
    · rw [if_pos hi]; omega
    · rw [if_neg hi]
      cases ha : o.act k with
      | Continue =>
        by_cases hb : breakpoints.contains (o.pc k) = true
        · rw [if_pos hb]; show k + 1 ≤ k + (n + 1); omega
        · rw [if_neg hb]
          show (run_responsive_loop o breakpoints intr n (k + 1)).2 ≤ k + (n + 1)
          have := ih (k + 1)
          omega
      | Break => show k + 1 ≤ k + (n + 1); omega
      | Exit => show k + 1 ≤ k + (n + 1); omega

/-- If no iteration sees an interrupt, a non-`Continue` action or a
breakpoint hit, the loop burns all its fuel and stops with `SIGALRM`. -/
theorem run_responsive_loop_clean (o : EmuOracle) (breakpoints : List Nat)
    (intr : Nat → Bool) :
    ∀ fuel k,
      (∀ j, j < k + fuel → intr j = false ∧ o.act j = SystemStepAction.Continue ∧
        breakpoints.contains (o.pc j) = false) →
      run_responsive_loop o breakpoints intr fuel k =
        (SingleThreadStopReason.Signal GSignal.SIGALRM, k + fuel) := by
  intro fuel
  induction fuel with
  | zero => intro k _; simp [run_responsive_loop]
  | succ n ih =>
    intro k h
    have hk := h k (by omega)
    have hrec := ih (k + 1) (fun j hj => h j (by omega))
    rw [run_responsive_loop]
    rw [if_neg (by simp [hk.1]), hk.2.1]
    show (if breakpoints.contains (o.pc k) = true then (SingleThreadStopReason.SwBreak, k + 1)
      else run_responsive_loop o breakpoints intr n (k + 1)) =
      (SingleThreadStopReason.Signal GSignal.SIGALRM, k + (n + 1))
    rw [if_neg (by simpa using hk.2.2), hrec]
    congr 1
    omega

/-- C2: in `Continue` mode one `GdbTarget::run_responsive` call performs at
most 1000 `Emulator::step` calls, and if no iteration sees a pending
interrupt request, a watchpoint or exit action, or a software breakpoint
hit, the call returns the synthetic stop reason `Signal(SIGALRM)`. -/
theorem gdb_run_responsive_bounded_sigalrm (o : EmuOracle)
    (breakpoints : List Nat) (intr : Nat → Bool) :
    (GdbTarget.run_responsive ExecMode.Continue o breakpoints intr).2 ≤ 1000 ∧
    ((∀ k, k < 1000 → intr k = false ∧ o.act k = SystemStepAction.Continue ∧
        breakpoints.contains (o.pc k) = false) →
      GdbTarget.run_responsive ExecMode.Continue o breakpoints intr =
        (SingleThreadStopReason.Signal GSignal.SIGALRM, 1000)) := by
  constructor
  · have := run_responsive_loop_steps_le o breakpoints intr 1000 0
    simpa [GdbTarget.run_responsive] using this
  · intro h
    have := run_responsive_loop_clean o breakpoints intr 1000 0
      (fun j hj => h j (by omega))
    simpa [GdbTarget.run_responsive] using this

/-- Concrete run of C2: an emulator that always continues at pc 4, no
breakpoints, no interrupts — 1000 steps then `SIGALRM`. -/
theorem gdb_run_responsive_sigalrm_witness :
    GdbTarget.run_responsive ExecMode.Continue
      ⟨fun _ => SystemStepAction.Continue, fun _ => 4⟩ [] (fun _ => false) =
      (SingleThreadStopReason.Signal GSignal.SIGALRM, 1000) :=
  (gdb_run_responsive_bounded_sigalrm ⟨fun _ => SystemStepAction.Continue, fun _ => 4⟩
    [] (fun _ => false)).2 (fun _ _ => ⟨rfl, rfl, rfl⟩)

/-- The first occurrence of `P` in `breakpoints ++ [P]` exists, and erasing
it leaves a permutation of `breakpoints`. -/
theorem position_of_append_self (l : List Nat) (P : Nat) :
    ∃ pos, position_of (l ++ [P]) P = some pos ∧ ((l ++ [P]).eraseIdx pos).Perm l := by
  induction l with
  | nil => exact ⟨0, by simp [position_of], by simp⟩
  | cons a l ih =>
    by_cases ha : a = P
    · subst ha
      refine ⟨0, by simp [position_of], ?_⟩
      simp only [List.cons_append, List.eraseIdx_cons_zero]
      exact List.perm_append_singleton a l
    · obtain ⟨pos, hpos, hperm⟩ := ih
      refine ⟨pos + 1, ?_, ?_⟩
      · simp [position_of, ha, hpos]
      · simpa [List.eraseIdx_cons_succ] using hperm.cons a

/-- C8: pushing a software breakpoint at `P` and then removing it restores
the breakpoint list up to permutation — in particular membership, and with
it the `breakpoints.contains(read_pc())` test every stepping loop uses, is
exactly as if the breakpoint had never been inserted. -/
theorem sw_breakpoint_add_remove_roundtrip (breakpoints : List Nat) (P : Nat) :
    ((GdbTarget.remove_sw_breakpoint
        (GdbTarget.add_sw_breakpoint breakpoints P).1 P).1).Perm breakpoints ∧
    (∀ pc, hits_sw_breakpoint
        (GdbTarget.remove_sw_breakpoint
          (GdbTarget.add_sw_breakpoint breakpoints P).1 P).1 pc =
      hits_sw_breakpoint breakpoints pc) := by
  obtain ⟨pos, hpos, hperm0⟩ := position_of_append_self breakpoints P
  have hperm : ((GdbTarget.remove_sw_breakpoint
      (GdbTarget.add_sw_breakpoint breakpoints P).1 P).1).Perm breakpoints := by
    simp only [GdbTarget.add_sw_breakpoint, GdbTarget.remove_sw_breakpoint, hpos]
    exact hperm0
  refine ⟨hperm, fun pc => ?_⟩
  simp only [hits_sw_breakpoint]
  simp
  exact hperm.mem_iff

/-- C10: `GdbTarget::read_addrs` and `GdbTarget::write_addrs` return `Ok`
for every address range; a byte read that faults on the bus contributes
`0x00` to the output buffer, and a byte write that faults is silently
discarded (the bus state is left unchanged by that byte), so bus access
faults are never reported to the remote debugger. -/
theorem gdb_read_write_addrs_never_fault {Mem : Type}
    (read_bus : Nat → Option Nat) (start_addr len : Nat)
    (write_bus : Mem → Nat → Nat → Option Mem) (m : Mem) (wstart : Nat)
    (data : List Nat) :
    (GdbTarget.read_addrs read_bus start_addr len).isOk = true ∧
    (GdbTarget.write_addrs write_bus m wstart data).isOk = true ∧
    (∀ i, i < len → read_bus ((start_addr + i) % 2 ^ 32) = none →
      ((GdbTarget.read_addrs read_bus start_addr len).toOption.getD []).get? i =
        some 0) ∧
    (∀ m' addr d, write_bus m' addr d = none →
      write_byte_step write_bus m' addr d = m') := by
  refine ⟨rfl, rfl, ?_, ?_⟩
  · intro i hi hfault
    have hfault' : read_bus ((start_addr + i) % 4294967296) = none := hfault
    simp [GdbTarget.read_addrs, Except.toOption, List.getElem?_map,
      List.getElem?_range hi, hfault']
  · intro m' addr d hfault
    simp [write_byte_step, hfault]

/-- A supported protocol id maps back to itself. -/
theorem DataObjectType.toId_fromId (i : Nat)
    (h : DataObjectType.fromId i ≠ DataObjectType.Unsupported) :
    (DataObjectType.fromId i).toId = i := by
  by_cases h0 : i = 0
  · simp [DataObjectType.fromId, h0, DataObjectType.toId]
  · by_cases h1 : i = 1
    · simp [DataObjectType.fromId, h0, h1, DataObjectType.toId]
    · by_cases h2 : i = 2
      · simp [DataObjectType.fromId, h0, h1, h2, DataObjectType.toId]
      · exfalso
        apply h
        simp [DataObjectType.fromId, h0, h1, h2]

/-- C3: for every DOE Discovery request with a supported index `i`, the
transport responds: a Discovery-type data object is transmitted whose
payload's next-index field is `(i + 1) % N`, `N` the number of supported
data-object protocol types. -/
theorem doe_discovery_next_index (i : Nat)
    (h : DataObjectType.fromId i ≠ DataObjectType.Unsupported) :
    ∃ hdr resp, DoeDriver.handle_doe_discovery ⟨i⟩ = some (hdr, resp) ∧
      resp.next_index = (i + 1) % NUM_DATA_OBJECT_PROTOCOL_TYPES ∧
      hdr.data_object_ty = DataObjectType.DoeDiscovery := by
  refine ⟨⟨0, DataObjectType.DoeDiscovery, DOE_DISCOVERY_DATA_OBJECT_LEN_DW⟩,
    ⟨(DataObjectType.fromId i).toId,
      ((DataObjectType.fromId i).toId + 1) % NUM_DATA_OBJECT_PROTOCOL_TYPES⟩,
    ?_, ?_, rfl⟩
  · simp [DoeDriver.handle_doe_discovery, h]
  · simp [DataObjectType.toId_fromId i h]

/-- Concrete run of C3, the spec's scenario S4: index 0 yields next-index
`1 % N = 1`. -/
theorem doe_discovery_next_index_witness :
    ∃ hdr resp, DoeDriver.handle_doe_discovery ⟨0⟩ = some (hdr, resp) ∧
      resp.next_index = (0 + 1) % NUM_DATA_OBJECT_PROTOCOL_TYPES ∧
      hdr.data_object_ty = DataObjectType.DoeDiscovery :=
  doe_discovery_next_index 0 (by decide)

/-- C4: a received DOE frame whose delivered word count is below 3, exceeds
the buffer, or differs from the header's length field is dropped: no
upcall is scheduled, no response is transmitted, and the buffer goes back
to the transport via `set_rx_buffer`. -/
theorem doe_receive_drops_bad_length (rx_buf : List Nat) (len : Nat)
    (h : len < 3 ∨ rx_buf.length < len ∨
      (∀ hdr, DoeDataObjectHeader.decode rx_buf = some hdr → hdr.length ≠ len)) :
    DoeDriver.receive rx_buf len = RxAction.drop ∧
    (DoeDriver.receive rx_buf len).schedules_upcall = false ∧
    (DoeDriver.receive rx_buf len).transmits_response = false ∧
    (DoeDriver.receive rx_buf len).returns_buffer = true := by
  have hdrop : DoeDriver.receive rx_buf len = RxAction.drop := by
    rcases h with h | h | h
    · simp [DoeDriver.receive, h]
    · rw [DoeDriver.receive, if_pos (Or.inr h)]
    · rw [DoeDriver.receive]
      by_cases hlen : len < 3 ∨ rx_buf.length < len
      · rw [if_pos hlen]
      · rw [if_neg hlen]
        cases hd : DoeDataObjectHeader.decode rx_buf with
        | none => rfl
        | some hdr =>
          have hv : hdr.validate len = false := by
            simpa [DoeDataObjectHeader.validate] using h hdr hd
          simp [hv]
  exact ⟨hdrop, by rw [hdrop]; rfl, by rw [hdrop]; rfl, by rw [hdrop]; rfl⟩

/-- Concrete run of C4: a three-word buffer delivered with word count 2 is
dropped with the buffer returned. -/
theorem doe_receive_drops_bad_length_witness :
    DoeDriver.receive [0, 0, 0] 2 = RxAction.drop ∧
    (DoeDriver.receive [0, 0, 0] 2).schedules_upcall = false ∧
    (DoeDriver.receive [0, 0, 0] 2).transmits_response = false ∧
    (DoeDriver.receive [0, 0, 0] 2).returns_buffer = true :=
  doe_receive_drops_bad_length [0, 0, 0] 2 (Or.inl (by decide))

/-- C5: `Emulator::read_binary` on an ELF errors with `InvalidInput`
exactly when the load address differs from `expect_load_addr` or the entry
point differs from both the load address and `load_addr + 0x20`; otherwise
it returns the ELF content; raw files are returned unchanged. -/
theorem read_binary_elf_checks (e : ElfExecutable) (expect_load_addr : Nat) :
    (Emulator.read_binary (FileContent.elf e) expect_load_addr =
        Except.error IoErrorKind.InvalidInput ↔
      (e.load_addr ≠ expect_load_addr ∨
        (e.entry_point ≠ e.load_addr ∧ e.entry_point ≠ e.load_addr + 0x20))) ∧
    (e.load_addr = expect_load_addr →
      (e.entry_point = e.load_addr ∨ e.entry_point = e.load_addr + 0x20) →
      Emulator.read_binary (FileContent.elf e) expect_load_addr =
        Except.ok e.content) ∧
    (∀ buffer, Emulator.read_binary (FileContent.raw buffer) expect_load_addr =
      Except.ok buffer) := by
  refine ⟨?_, ?_, fun buffer => rfl⟩
  · by_cases hla : e.load_addr = expect_load_addr <;>
      by_cases h1 : e.entry_point = e.load_addr <;>
      by_cases h2 : e.entry_point = e.load_addr + 0x20 <;>
      simp [Emulator.read_binary, hla, h1, h2]
  · intro hla hep
    subst hla
    have hep' : ¬(e.entry_point ≠ e.load_addr ∧ e.entry_point ≠ e.load_addr + 0x20) := by
      tauto
    simp [Emulator.read_binary, hep']

/-- C6: without the flash-based-boot feature, startup pushes exactly three
recovery images into the recovery controller's queue, in this order:
Caliptra firmware, SoC manifest, MCU firmware. -/
theorem emulator_new_three_recovery_images
    (caliptra_firmware soc_manifest mcu_firmware : List Nat) :
    emulator_new_bmc
        (build_bus_system_recovery_images caliptra_firmware soc_manifest mcu_firmware) =
      some ⟨[caliptra_firmware, soc_manifest, mcu_firmware]⟩ ∧
    (emulator_new_bmc
        (build_bus_system_recovery_images caliptra_firmware soc_manifest mcu_firmware)).map
      (fun b => b.recovery_images.length) = some 3 := by
  exact ⟨rfl, rfl⟩

/-- C7: the archive `all_build` writes has exactly the five literal entry
names, `read_from_zip` of that archive recovers every field of the bundle,
and an appended entry with an unknown name is ignored on read. -/
theorem firmware_zip_roundtrip (b : FirmwareBinaries) (name : String)
    (data : List Nat)
    (h : name ∉ [FirmwareBinaries.CALIPTRA_ROM_NAME, FirmwareBinaries.CALIPTRA_FW_NAME,
      FirmwareBinaries.MCU_ROM_NAME, FirmwareBinaries.MCU_RUNTIME_NAME,
      FirmwareBinaries.SOC_MANIFEST_NAME]) :
    (all_build_entries b).map Prod.fst =
      [FirmwareBinaries.CALIPTRA_ROM_NAME, FirmwareBinaries.CALIPTRA_FW_NAME,
        FirmwareBinaries.MCU_ROM_NAME, FirmwareBinaries.MCU_RUNTIME_NAME,
        FirmwareBinaries.SOC_MANIFEST_NAME] ∧
    FirmwareBinaries.read_from_zip (all_build_entries b) = b ∧
    FirmwareBinaries.read_from_zip (all_build_entries b ++ [(name, data)]) = b := by
  simp only [List.mem_cons, List.not_mem_nil, or_false, not_or] at h
  obtain ⟨h1, h2, h3, h4, h5⟩ := h
  refine ⟨rfl, rfl, ?_⟩
  show FirmwareBinaries.read_entry
    (FirmwareBinaries.read_from_zip (all_build_entries b)) (name, data) = b
  rw [show FirmwareBinaries.read_from_zip (all_build_entries b) = b from rfl]
  simp [FirmwareBinaries.read_entry, h1, h2, h3, h4, h5]

/-- Concrete run of C7: a bundle with distinct one-byte fields survives the
round trip and ignores the unknown entry `extra.bin`. -/
theorem firmware_zip_roundtrip_witness :
    (all_build_entries ⟨[1], [2], [3], [4], [5]⟩).map Prod.fst =
      [FirmwareBinaries.CALIPTRA_ROM_NAME, FirmwareBinaries.CALIPTRA_FW_NAME,
        FirmwareBinaries.MCU_ROM_NAME, FirmwareBinaries.MCU_RUNTIME_NAME,
        FirmwareBinaries.SOC_MANIFEST_NAME] ∧
    FirmwareBinaries.read_from_zip (all_build_entries ⟨[1], [2], [3], [4], [5]⟩) =
      ⟨[1], [2], [3], [4], [5]⟩ ∧
    FirmwareBinaries.read_from_zip
        (all_build_entries ⟨[1], [2], [3], [4], [5]⟩ ++ [("extra.bin", [9])]) =
      ⟨[1], [2], [3], [4], [5]⟩ :=
  firmware_zip_roundtrip ⟨[1], [2], [3], [4], [5]⟩ "extra.bin" [9] (by decide)

/-- C9 counterexample: the claim keys the WARM_RESET latch to the first
`step()`, but the code keys it to the first warm reset since power-on.
Concretely: (a) from the initial state, two warm resets with no step event
at all — the second warm reset, still "during initialization, before any
step", sets WARM_RESET (bit 2), which the claim says never happens; and
(b) one step followed by one warm reset — a warm reset strictly after the
first step with power good, which the claim says always sets the bit, yet
the bit stays clear. -/
theorem reset_reason_step_keyed_latch_false :
    (ResetReasonEmulator.new.run [RREvent.warmReset, RREvent.warmReset]).value.testBit 2 =
      true ∧
    (ResetReasonEmulator.new.run [RREvent.step, RREvent.warmReset]).value.testBit 2 =
      false := by
  constructor <;> decide

/-- C9 as amended: WARM_RESET (bit 2) is latched by a warm reset exactly
when power is good and this is not the first warm reset since power-on
(the latch key is `first_mci_reset_captured`, not the first `step()`); in
particular the first warm reset from the initial state leaves it clear.
Every warm reset clears FW_BOOT_UPD_RESET (bit 1) and FW_HITLESS_UPD_RESET
(bit 0) and records that a reset edge was seen. -/
theorem reset_reason_warm_reset_latch (s : ResetReasonEmulator) :
    s.handle_warm_reset.first_mci_reset_captured = true ∧
    s.handle_warm_reset.value.testBit 0 = false ∧
    s.handle_warm_reset.value.testBit 1 = false ∧
    s.handle_warm_reset.value.testBit 2 =
      (s.value.testBit 2 || (s.pwrgood && s.first_mci_reset_captured)) ∧
    ResetReasonEmulator.new.handle_warm_reset.value.testBit 2 = false := by
  have hb0 : Nat.testBit 4294967292 0 = false := by decide
  have hb1 : Nat.testBit 4294967292 1 = false := by decide
  have hb2 : Nat.testBit 4294967292 2 = true := by decide
  have hb4 : Nat.testBit 4 2 = true := by decide
  refine ⟨rfl, ?_, ?_, ?_, by decide⟩ <;>
    cases hp : s.pwrgood <;> cases hf : s.first_mci_reset_captured <;>
      simp [ResetReasonEmulator.handle_warm_reset, hp, hf, Nat.testBit_land,
        Nat.testBit_lor, hb0, hb1, hb2, hb4]
